import Mathlib

/-!
Shallow embedding of the `shaper` point-cloud framework
(checkpointing, model registry, dataloader construction,
classification accuracy metric, few-shot ShapeNet dataset),
with theorems settling the specified properties.
-/

set_option maxHeartbeats 1000000

namespace Shaper

/-! ### POSIX path model (os.path on strings) -/

/-- Python whitespace characters removed by `str.strip()`. -/
def isPySpace (c : Char) : Bool :=
  c = ' ' || c = '\t' || c = '\n' || c = '\r' || c = '\x0b' || c = '\x0c'

/-- `str.strip()`: remove leading and trailing whitespace. -/
def pyStrip (s : String) : String :=
  ⟨((s.data.dropWhile isPySpace).reverse.dropWhile isPySpace).reverse⟩

/-- `os.path.isabs`: the path begins with a slash. -/
def isAbs (p : String) : Bool :=
  match p.data with
  | c :: _ => c = '/'
  | [] => false

/-- `os.path.basename`: everything after the last slash. -/
def basename (p : String) : String :=
  ⟨(p.data.reverse.takeWhile (fun c => decide (c ≠ '/'))).reverse⟩

/-- `os.path.join` for two components (posixpath semantics). -/
def joinPath (a b : String) : String :=
  if isAbs b then b
  else if a = "" ∨ a.data.getLast? = some '/' then a ++ b
  else a ++ "/" ++ b

/-! ### Python dict as an insertion-ordered association list -/

/-- Lookup of a key, first binding wins (keys are unique in a real dict). -/
def dictLookup {α : Type} : List (String × α) → String → Option α
  | [], _ => none
  | kv :: rest, k => if kv.1 = k then some kv.2 else dictLookup rest k

/-- `k in d`. -/
def dictContains {α : Type} (d : List (String × α)) (k : String) : Bool :=
  (dictLookup d k).isSome

/-- `d[k] = v`: replace in place if present, else append (insertion order). -/
def dictSet {α : Type} : List (String × α) → String → α → List (String × α)
  | [], k, v => [(k, v)]
  | kv :: rest, k, v => if kv.1 = k then (k, v) :: rest else kv :: dictSet rest k v

/-- `d.update(kvs)`. -/
def dictUpdate {α : Type} (d : List (String × α)) (kvs : List (String × α)) :
    List (String × α) :=
  kvs.foldl (fun acc kv => dictSet acc kv.1 kv.2) d

/-- `d.pop(k)`, key-removal part (lookup is done separately). -/
def dictPop {α : Type} : List (String × α) → String → List (String × α)
  | [], _ => []
  | kv :: rest, k => if kv.1 = k then rest else kv :: dictPop rest k

/-- The keys of a dict. -/
def dictKeys {α : Type} (d : List (String × α)) : List String := d.map (·.1)

/-! ### File system model -/

/-- Contents of a file: either plain text (the tag file) or a serialized
checkpoint dictionary with values of type `V`. -/
inductive FileData (V : Type) : Type
  | text (s : String)
  | ckpt (d : List (String × V))
deriving DecidableEq

/-- A file system: paths mapped to file contents. -/
def Fs (V : Type) : Type := List (String × FileData V)

def fsRead {V : Type} (fs : Fs V) (p : String) : Option (FileData V) :=
  dictLookup fs p

def fsWrite {V : Type} (fs : Fs V) (p : String) (fd : FileData V) : Fs V :=
  dictSet fs p fd

/-- `os.path.exists`. -/
def fsExists {V : Type} (fs : Fs V) (p : String) : Bool :=
  dictContains fs p

/-! ### Checkpointer (src/shaper/utils/checkpoint.py)

A module's mutable parameters are modelled by their state dict, a value of
type `V`; `state_dict()` reads it and `load_state_dict` replaces it. -/

structure Checkpointer (V : Type) : Type where
  model : V
  optimizer : Option V
  scheduler : Option V
  save_dir : String
deriving DecidableEq

namespace Checkpointer

variable {V : Type}

/-- `tag_last_checkpoint(last_filename, tag_file)`: write the pointer file. -/
def tag_last_checkpoint (c : Checkpointer V) (fs : Fs V)
    (last_filename tag_file : String) : Fs V :=
  let save_file := joinPath c.save_dir tag_file
  let lf := if isAbs last_filename then last_filename else basename last_filename
  fsWrite fs save_file (.text lf)

/-- The dictionary assembled by `save` before serialization. -/
def saveData (c : Checkpointer V) (kwargs : List (String × V)) :
    List (String × V) :=
  let d := [("model", c.model)]
  let d := match c.optimizer with
    | some o => d ++ [("optimizer", o)]
    | none => d
  let d := match c.scheduler with
    | some s => d ++ [("scheduler", s)]
    | none => d
  dictUpdate d kwargs

/-- The model/optimizer/scheduler portion of `saveData` (the dict before
`data.update(kwargs)`), spelled as one append for reasoning. -/
def saveBase (c : Checkpointer V) : List (String × V) :=
  [("model", c.model)]
    ++ (match c.optimizer with | some o => [("optimizer", o)] | none => [])
    ++ (match c.scheduler with | some s => [("scheduler", s)] | none => [])

/-- `save(name, tag_file, **kwargs)`: returns the updated file system. -/
def save (c : Checkpointer V) (fs : Fs V) (name tag_file : String)
    (kwargs : List (String × V)) : Fs V :=
  if c.save_dir = "" then fs
  else
    let save_file := joinPath c.save_dir (name ++ ".pth")
    let fs := fsWrite fs save_file (.ckpt (saveData c kwargs))
    tag_last_checkpoint c fs save_file tag_file

/-- `has_checkpoint(tag_file)`. -/
def has_checkpoint (c : Checkpointer V) (fs : Fs V) (tag_file : String) : Bool :=
  fsExists fs (joinPath c.save_dir tag_file)

/-- `get_checkpoint_file(tag_file)`: read the pointer file, strip it, and
resolve a relative name under `save_dir`; any read failure yields `""`. -/
def get_checkpoint_file (c : Checkpointer V) (fs : Fs V) (tag_file : String) :
    String :=
  let save_file := joinPath c.save_dir tag_file
  match fsRead fs save_file with
  | some (.text s) =>
      let last_saved := pyStrip s
      if isAbs last_saved then last_saved else joinPath c.save_dir last_saved
  | _ => ""

/-- The body of `load` after the checkpoint file `f` has been opened:
pop "model" (a missing key raises, modelled as `none`), conditionally pop
"optimizer" and "scheduler", and return the updated checkpointer together
with the remaining dictionary. -/
def loadCkptFile (c : Checkpointer V) (fs : Fs V) (f : String) :
    Option (Checkpointer V × List (String × V)) :=
  match fsRead fs f with
  | some (.ckpt d0) =>
      match dictLookup d0 "model" with
      | none => none
      | some m =>
          let d1 := dictPop d0 "model"
          let od2 :=
            if dictContains d1 "optimizer" && c.optimizer.isSome then
              (dictLookup d1 "optimizer", dictPop d1 "optimizer")
            else (c.optimizer, d1)
          let sd3 :=
            if dictContains od2.2 "scheduler" && c.scheduler.isSome then
              (dictLookup od2.2 "scheduler", dictPop od2.2 "scheduler")
            else (c.scheduler, od2.2)
          some ({ c with model := m, optimizer := od2.1, scheduler := sd3.1 },
                sd3.2)
  | _ => none

/-- `load`'s branch on the (possibly overridden) filename `f`:
`if not f: return {}`. -/
def loadFromName (c : Checkpointer V) (fs : Fs V) (f : Option String) :
    Option (Checkpointer V × List (String × V)) :=
  match f with
  | none => some (c, [])
  | some s => if s = "" then some (c, []) else loadCkptFile c fs s

/-- `load(f, resume, tag_file)`: `none` models an uncaught exception. -/
def load (c : Checkpointer V) (fs : Fs V) (f : Option String) (resume : Bool)
    (tag_file : String) : Option (Checkpointer V × List (String × V)) :=
  let f' := if resume && has_checkpoint c fs tag_file then
              some (get_checkpoint_file c fs tag_file)
            else f
  loadFromName c fs f'

end Checkpointer

/-! ### Configuration tree (src/shaper/config/defaults.py, the fields used) -/

structure ModelCfg : Type where
  TYPE : String

structure TrainCfg : Type where
  BATCH_SIZE : Nat

structure TestCfg : Type where
  BATCH_SIZE : Nat

structure DataloaderCfg : Type where
  NUM_WORKERS : Nat
  DROP_LAST : Bool

structure Cfg : Type where
  MODEL : ModelCfg
  TRAIN : TrainCfg
  TEST : TestCfg
  DATALOADER : DataloaderCfg

/-- Python exceptions surfacing in the embedded code. -/
inductive PyErr : Type
  | keyError (k : String)
  | assertionError
deriving DecidableEq

/-! ### Model registry (src/shaper/models/build.py)

`μ` is the (abstract) type of built models; the six builder functions are
parameters since their bodies live in the model modules. -/

/-- `_MODEL_BUILDERS`, keyed exactly as in the source. -/
def modelBuilders {μ : Type}
    (build_pointnet build_dgcnn build_pointnet2ssg build_pointnet2msg
     build_pns2cnn build_s2cnn : Cfg → μ) : List (String × (Cfg → μ)) :=
  [("POINTNET", build_pointnet),
   ("DGCNN", build_dgcnn),
   ("PN2SSG", build_pointnet2ssg),
   ("PN2MSG", build_pointnet2msg),
   ("PNS2CNN", build_pns2cnn),
   ("S2CNN", build_s2cnn)]

/-- `build_model(cfg)`: a missing key raises `KeyError`. -/
def build_model {μ : Type} (reg : List (String × (Cfg → μ))) (cfg : Cfg) :
    Except PyErr μ :=
  match dictLookup reg cfg.MODEL.TYPE with
  | some b => .ok (b cfg)
  | none => .error (.keyError cfg.MODEL.TYPE)

/-- `register_model_builder(name, builder)`: duplicate keys raise before any
mutation; a fresh key is inserted at the end of the dict. -/
def register_model_builder {μ : Type} (reg : List (String × (Cfg → μ)))
    (name : String) (builder : Cfg → μ) :
    Except PyErr (List (String × (Cfg → μ))) :=
  if dictContains reg name then .error (.keyError name)
  else .ok (reg ++ [(name, builder)])

/-! ### Dataloader construction (src/shaper/data/build.py)

`δ` is the abstract type of datasets; `buildDataset` stands for the call
`build_dataset(cfg, mode)` (whose own failures it may propagate). -/

/-- The constructor arguments passed to the library `DataLoader`. -/
structure DataLoaderArgs (δ : Type) : Type where
  dataset : δ
  batch_size : Nat
  shuffle : Bool
  drop_last : Bool
  num_workers : Nat
deriving DecidableEq

/-- `build_dataloader(cfg, mode)`. -/
def build_dataloader {δ : Type} (buildDataset : String → Except PyErr δ)
    (cfg : Cfg) (mode : String) : Except PyErr (DataLoaderArgs δ) :=
  if ¬ (mode = "train" ∨ mode = "val" ∨ mode = "test") then
    .error .assertionError
  else
    let batch_size := if mode = "train" then cfg.TRAIN.BATCH_SIZE
                      else cfg.TEST.BATCH_SIZE
    let is_train := decide (mode = "train")
    match buildDataset mode with
    | .error e => .error e
    | .ok ds =>
        .ok ⟨ds, batch_size, is_train,
             is_train && cfg.DATALOADER.DROP_LAST,
             cfg.DATALOADER.NUM_WORKERS⟩

/-! ### Classification accuracy (src/shaper/models/metric.py)

A `(B, C)` logit tensor is a list of `B` rows of integer scores; float
results are exact rationals here. `torch.argmax` returns the first index
attaining the maximum. -/

/-- Scan for the first maximal entry: `best`/`bestIdx` the best so far,
`i` the index of the next element. -/
def argmaxAux (best : ℤ) (bestIdx i : ℕ) : List ℤ → ℕ
  | [] => bestIdx
  | x :: rest =>
      if best < x then argmaxAux x i (i + 1) rest
      else argmaxAux best bestIdx (i + 1) rest

/-- `tensor.argmax()` over one row of class scores. -/
def argmaxList : List ℤ → ℕ
  | [] => 0
  | x :: rest => argmaxAux x 0 1 rest

/-- The predictions dictionary, as far as `ClsAccuracy` reads it. -/
structure Preds : Type where
  cls_logit : List (List ℤ)

/-- The labels dictionary, as far as `ClsAccuracy` reads it. -/
structure Labels : Type where
  cls_label : List ℤ

/-- `ClsAccuracy.forward(preds, labels)`. -/
def ClsAccuracy.forward (preds : Preds) (labels : Labels) :
    List (String × List ℚ) :=
  let pred_label := preds.cls_logit.map (fun row => (argmaxList row : ℤ))
  let cls_acc := (pred_label.zip labels.cls_label).map
    (fun pl => if pl.1 = pl.2 then (1 : ℚ) else 0)
  [("cls_acc", cls_acc)]

/-! ### Few-shot ShapeNet `__getitem__`
(src/shaper_few_shot/data/datasets/shapenet_fewshot.py)

The per-item point-selection logic, for `transform=None`. The stored point
cloud of the indexed item is `points`; `num_points` is an `int` (negative
or zero means "use all"). The two `np.random.permutation` draws are passed
in as functions: `permAll n` is the shuffled index order of
`np.random.permutation(len(points))`, `permPad l` the draw
`np.random.permutation(choice)` used for padding. -/

/-- The index list `choice` built by `__getitem__`. -/
def fewshotChoice (n : ℕ) (num_points : ℤ) (shuffle_points : Bool)
    (permAll : ℕ → List ℕ) (permPad : List ℕ → List ℕ) : List ℕ :=
  let choice := if shuffle_points then permAll n else List.range n
  if 0 < num_points then
    if num_points ≤ (n : ℤ) then choice.take num_points.toNat
    else
      let num_pad := (num_points - (n : ℤ)).toNat
      let pad := (permPad choice).take num_pad
      choice ++ pad
  else choice

/-- The `"points"` array returned by `__getitem__` (fancy indexing
`points[choice]`; all indices produced are in range). -/
def fewshotGetPoints {P : Type} [Inhabited P] (points : List P)
    (num_points : ℤ) (shuffle_points : Bool)
    (permAll : ℕ → List ℕ) (permPad : List ℕ → List ℕ) : List P :=
  (fewshotChoice points.length num_points shuffle_points permAll permPad).map
    (fun i => points.getD i default)

/-! ### Helper lemmas: dictionaries -/

theorem dictLookup_append {α : Type} (a b : List (String × α)) (k : String) :
    dictLookup (a ++ b) k = (dictLookup a k).or (dictLookup b k) := by
  induction a with
  | nil => rfl
  | cons kv rest ih =>
      by_cases h : kv.1 = k <;> simp [dictLookup, h, ih]

theorem dictKeys_cons {α : Type} (kv : String × α) (rest : List (String × α)) :
    dictKeys (kv :: rest) = kv.1 :: dictKeys rest := rfl

theorem dictContains_iff_mem_keys {α : Type} (d : List (String × α))
    (k : String) : dictContains d k = true ↔ k ∈ dictKeys d := by
  induction d with
  | nil => simp [dictContains, dictLookup, dictKeys]
  | cons kv rest ih =>
      by_cases h : kv.1 = k
      · simp [dictContains, dictLookup, dictKeys, h]
      · have hunf : dictContains (kv :: rest) k = dictContains rest k := by
          simp [dictContains, dictLookup, h]
        rw [hunf, ih, dictKeys_cons]
        constructor
        · exact fun hm => List.mem_cons_of_mem _ hm
        · intro hm
          rcases List.mem_cons.mp hm with he | hm'
          · exact absurd he.symm h
          · exact hm'

theorem dictLookup_set_self {α : Type} (d : List (String × α)) (k : String)
    (v : α) : dictLookup (dictSet d k v) k = some v := by
  induction d with
  | nil => simp [dictSet, dictLookup]
  | cons kv rest ih =>
      by_cases h : kv.1 = k <;> simp [dictSet, dictLookup, h, ih]

theorem dictLookup_set_ne {α : Type} (d : List (String × α)) (k k' : String)
    (v : α) (h : k' ≠ k) : dictLookup (dictSet d k v) k' = dictLookup d k' := by
  induction d with
  | nil => simp [dictSet, dictLookup, Ne.symm h]
  | cons kv rest ih =>
      by_cases hk : kv.1 = k
      · subst hk
        simp [dictSet, dictLookup, Ne.symm h]
      · by_cases hk' : kv.1 = k' <;> simp [dictSet, dictLookup, hk, hk', ih, h]

theorem dictSet_of_not_mem {α : Type} (d : List (String × α)) (k : String)
    (v : α) (h : k ∉ dictKeys d) : dictSet d k v = d ++ [(k, v)] := by
  induction d with
  | nil => rfl
  | cons kv rest ih =>
      simp only [dictKeys, List.map_cons, List.mem_cons] at h
      push_neg at h
      simp [dictSet, h.1.symm, ih (by simpa [dictKeys] using h.2)]

theorem dictUpdate_disjoint {α : Type} (d kvs : List (String × α))
    (hdisj : ∀ k ∈ dictKeys kvs, k ∉ dictKeys d)
    (hnd : (dictKeys kvs).Nodup) : dictUpdate d kvs = d ++ kvs := by
  induction kvs generalizing d with
  | nil => simp [dictUpdate]
  | cons kv rest ih =>
      have h1 : kv.1 ∉ dictKeys d := hdisj kv.1 (by simp [dictKeys])
      have hstep : dictUpdate d (kv :: rest) =
          dictUpdate (dictSet d kv.1 kv.2) rest := rfl
      rw [hstep, dictSet_of_not_mem d kv.1 kv.2 h1]
      simp only [dictKeys, List.map_cons, List.nodup_cons] at hnd
      rw [ih (d ++ [(kv.1, kv.2)]) ?_ hnd.2]
      · simp
      · intro k hk
        simp only [dictKeys, List.map_append, List.map_cons, List.map_nil,
          List.mem_append, List.mem_singleton]
        push_neg
        refine ⟨hdisj k (by rw [dictKeys_cons]; exact List.mem_cons_of_mem _ hk), ?_⟩
        intro hkk
        exact hnd.1 (hkk ▸ hk)

theorem dictLookup_of_mem_nodup {α : Type} (kvs : List (String × α))
    (k : String) (v : α) (hmem : (k, v) ∈ kvs)
    (hnd : (dictKeys kvs).Nodup) : dictLookup kvs k = some v := by
  induction kvs with
  | nil => simp at hmem
  | cons kv rest ih =>
      simp only [dictKeys, List.map_cons, List.nodup_cons] at hnd
      rcases List.mem_cons.mp hmem with h | h
      · subst h; simp [dictLookup]
      · have hne : kv.1 ≠ k := by
          intro he
          exact hnd.1 (he ▸ (by simpa [dictKeys] using List.mem_map_of_mem (·.1) h))
        simp [dictLookup, hne, ih h hnd.2]

/-! ### Helper lemmas: strings and paths -/

theorem dropWhile_eq_self_of_head {p : Char → Bool} (l : List Char)
    (h : ∀ c, l.head? = some c → p c = false) : l.dropWhile p = l := by
  cases l with
  | nil => rfl
  | cons a t => rw [List.dropWhile_cons, h a rfl]; simp

theorem takeWhile_eq_self_of_all {p : Char → Bool} (l : List Char)
    (h : ∀ c ∈ l, p c = true) : l.takeWhile p = l := by
  induction l with
  | nil => rfl
  | cons a t ih =>
      rw [List.takeWhile_cons, h a (by simp)]
      simp [ih fun c hc => h c (by simp [hc])]

theorem takeWhile_append_of_all {p : Char → Bool} (l1 l2 : List Char)
    (h : ∀ c ∈ l1, p c = true) :
    (l1 ++ l2).takeWhile p = l1 ++ l2.takeWhile p := by
  induction l1 with
  | nil => rfl
  | cons a t ih =>
      rw [List.cons_append, List.takeWhile_cons, h a (by simp)]
      simp [ih fun c hc => h c (by simp [hc])]

theorem getLast?_append_right {α : Type} (l1 l2 : List α) (h : l2 ≠ []) :
    (l1 ++ l2).getLast? = l2.getLast? := by
  rw [← List.head?_reverse, List.reverse_append, ← List.head?_reverse l2]
  cases hr : l2.reverse with
  | nil => exact absurd (List.reverse_eq_nil_iff.mp hr) h
  | cons x t => simp [hr]

theorem pyStrip_eq_self (s : String)
    (h1 : ∀ c, s.data.head? = some c → isPySpace c = false)
    (h2 : ∀ c, s.data.getLast? = some c → isPySpace c = false) :
    pyStrip s = s := by
  unfold pyStrip
  rw [dropWhile_eq_self_of_head s.data h1,
      dropWhile_eq_self_of_head s.data.reverse
        (fun c hc => h2 c (by rwa [List.head?_reverse] at hc)),
      List.reverse_reverse]

theorem isAbs_eq_false_of_no_slash (s : String) (h : '/' ∉ s.data) :
    isAbs s = false := by
  unfold isAbs
  cases hd : s.data with
  | nil => rfl
  | cons c t =>
      have hc : c ∈ s.data := by rw [hd]; simp
      simp only [decide_eq_false_iff_not]
      intro he
      exact h (he ▸ hc)

theorem basename_eq_self (s : String) (h : '/' ∉ s.data) : basename s = s := by
  unfold basename
  rw [takeWhile_eq_self_of_all s.data.reverse ?_, List.reverse_reverse]
  intro c hc
  simp only [decide_eq_true_eq]
  intro he
  exact h (he ▸ List.mem_reverse.mp hc)

theorem strAppend_cancel (a b c : String) (h : a ++ b = a ++ c) : b = c := by
  apply String.ext
  have hd := congrArg String.data h
  rw [String.data_append, String.data_append] at hd
  exact List.append_cancel_left hd

theorem pth_ne_last_checkpoint (name : String) :
    name ++ ".pth" ≠ "last_checkpoint" := by
  intro h
  have hd := congrArg String.data h
  rw [String.data_append] at hd
  have h1 : (name.data ++ (".pth" : String).data).getLast? = some 'h' := by
    rw [getLast?_append_right _ _ (by decide)]
    decide
  rw [hd] at h1
  exact absurd h1 (by decide)

theorem isAbs_true_iff (s : String) : isAbs s = true ↔ s.data.head? = some '/' := by
  unfold isAbs
  cases s.data <;> simp

theorem mem_takeWhile_eq_true {p : Char → Bool} {l : List Char} {a : Char}
    (h : a ∈ l.takeWhile p) : p a = true := by
  induction l with
  | nil => simp [List.takeWhile] at h
  | cons x t ih =>
      rw [List.takeWhile_cons] at h
      by_cases hx : p x = true
      · rw [if_pos hx] at h
        rcases List.mem_cons.mp h with he | hm
        · exact he ▸ hx
        · exact ih hm
      · rw [if_neg hx] at h
        simp at h

theorem basename_no_slash (s : String) : '/' ∉ (basename s).data := by
  unfold basename
  intro h
  rw [List.mem_reverse] at h
  have := mem_takeWhile_eq_true h
  simp at this

theorem basename_eq_of_split (w s : String) (pre : List Char)
    (hw : w.data = pre ++ '/' :: s.data) (h : '/' ∉ s.data) : basename w = s := by
  have hP : ∀ c ∈ s.data.reverse, (fun c => decide (c ≠ '/')) c = true := by
    intro c hc
    simp only [decide_eq_true_eq]
    intro he
    exact h (he ▸ List.mem_reverse.mp hc)
  unfold basename
  rw [hw, List.reverse_append, List.reverse_cons, List.append_assoc,
      takeWhile_append_of_all _ _ hP, List.singleton_append,
      List.takeWhile_cons]
  simp

theorem isAbs_append_pth (name : String) (h : '/' ∉ name.data) :
    isAbs (name ++ ".pth") = false ∧ '/' ∉ (name ++ ".pth").data := by
  have hmem : '/' ∉ (name ++ ".pth").data := by
    rw [String.data_append]
    intro hm
    rcases List.mem_append.mp hm with hm | hm
    · exact h hm
    · exact absurd hm (by decide)
  exact ⟨isAbs_eq_false_of_no_slash _ hmem, hmem⟩

theorem basename_joinPath (sd s : String) (hsd : sd ≠ "") (h : '/' ∉ s.data) :
    basename (joinPath sd s) = s := by
  have habs : isAbs s = false := isAbs_eq_false_of_no_slash s h
  unfold joinPath
  rw [habs]
  simp only [Bool.false_eq_true, if_false]
  by_cases hc : sd = "" ∨ sd.data.getLast? = some '/'
  · rw [if_pos hc]
    rcases hc with hc | hc
    · exact absurd hc hsd
    · obtain ⟨t, ht⟩ : ∃ t, sd.data.reverse = '/' :: t := by
        have hh : sd.data.reverse.head? = some '/' := by
          rw [List.head?_reverse]; exact hc
        cases hr : sd.data.reverse with
        | nil => rw [hr] at hh; simp at hh
        | cons x xs =>
            rw [hr] at hh
            simp only [List.head?_cons, Option.some.injEq] at hh
            exact ⟨xs, by rw [hh]⟩
      have hsplit : (sd ++ s).data = t.reverse ++ '/' :: s.data := by
        rw [String.data_append]
        have : sd.data = ('/' :: t).reverse := by
          rw [← ht, List.reverse_reverse]
        rw [this, List.reverse_cons, List.append_assoc]
        rfl
      exact basename_eq_of_split _ _ _ hsplit h
  · rw [if_neg hc]
    have hsplit : (sd ++ "/" ++ s).data = sd.data ++ '/' :: s.data := by
      rw [String.data_append, String.data_append, List.append_assoc]
      rfl
    exact basename_eq_of_split _ _ _ hsplit h

theorem joinPath_getLast (a b : String) (hb : b.data ≠ []) :
    (joinPath a b).data.getLast? = b.data.getLast? := by
  unfold joinPath
  split
  · rfl
  · split
    · rw [String.data_append]; exact getLast?_append_right _ _ hb
    · rw [String.data_append]; exact getLast?_append_right _ _ hb

theorem joinPath_inj_rel (sd a b : String) (ha : isAbs a = false)
    (hb : isAbs b = false) (h : joinPath sd a = joinPath sd b) : a = b := by
  unfold joinPath at h
  rw [ha, hb] at h
  simp only [Bool.false_eq_true, if_false] at h
  by_cases hc : sd = "" ∨ sd.data.getLast? = some '/'
  · rw [if_pos hc, if_pos hc] at h
    exact strAppend_cancel _ _ _ h
  · rw [if_neg hc, if_neg hc] at h
    exact strAppend_cancel _ _ _ h

theorem string_ne_empty_of_getLast {s : String} {c : Char}
    (h : s.data.getLast? = some c) : s ≠ "" := by
  intro he
  rw [he] at h
  simp at h

theorem dictLookup_eq_none_of_not_mem {α : Type} (d : List (String × α))
    (k : String) (h : k ∉ dictKeys d) : dictLookup d k = none := by
  cases hl : dictLookup d k with
  | none => rfl
  | some v =>
      exact absurd ((dictContains_iff_mem_keys d k).mp
        (by simp [dictContains, hl])) h

/-! ### Helper lemmas: the checkpoint dictionary and `save` -/

theorem saveBase_keys_subset {V : Type} (c : Checkpointer V) :
    ∀ k ∈ dictKeys (Checkpointer.saveBase c),
      k ∈ (["model", "optimizer", "scheduler"] : List String) := by
  cases ho : c.optimizer <;> cases hs : c.scheduler <;>
    · intro k hk
      simp [Checkpointer.saveBase, dictKeys, ho, hs] at hk ⊢
      tauto

theorem saveData_eq_base_append {V : Type} (c : Checkpointer V)
    (kwargs : List (String × V)) (hnd : (dictKeys kwargs).Nodup)
    (hdisj : ∀ k ∈ dictKeys kwargs,
      k ∉ (["model", "optimizer", "scheduler"] : List String)) :
    Checkpointer.saveData c kwargs = Checkpointer.saveBase c ++ kwargs := by
  have hform : Checkpointer.saveData c kwargs =
      dictUpdate (Checkpointer.saveBase c) kwargs := by
    unfold Checkpointer.saveData Checkpointer.saveBase
    cases c.optimizer <;> cases c.scheduler <;> simp
  rw [hform]
  exact dictUpdate_disjoint _ _
    (fun k hk hmem => hdisj k hk (saveBase_keys_subset c k hmem)) hnd

theorem save_unfold {V : Type} (c : Checkpointer V) (fs : Fs V)
    (name tag_file : String) (kwargs : List (String × V))
    (hsd : c.save_dir ≠ "") :
    Checkpointer.save c fs name tag_file kwargs =
      fsWrite (fsWrite fs (joinPath c.save_dir (name ++ ".pth"))
          (.ckpt (Checkpointer.saveData c kwargs)))
        (joinPath c.save_dir tag_file)
        (.text (if isAbs (joinPath c.save_dir (name ++ ".pth"))
                then joinPath c.save_dir (name ++ ".pth")
                else basename (joinPath c.save_dir (name ++ ".pth")))) := by
  unfold Checkpointer.save Checkpointer.tag_last_checkpoint
  rw [if_neg hsd]

/-! ## Claims -/

/-- **C10**: when a `Checkpointer`'s `save_dir` is the empty string,
`save(name, tag_file, **kwargs)` is a no-op: the file system is returned
unchanged, so no checkpoint file is written and no tag file is created or
modified. -/
theorem save_noop_of_empty_save_dir {V : Type} (c : Checkpointer V)
    (fs : Fs V) (name tag_file : String) (kwargs : List (String × V))
    (h : c.save_dir = "") :
    Checkpointer.save c fs name tag_file kwargs = fs := by
  unfold Checkpointer.save
  rw [if_pos h]

/-- Witness for C10 at a concrete checkpointer with empty `save_dir`. -/
theorem save_noop_of_empty_save_dir_witness :
    Checkpointer.save (V := ℕ) ⟨0, none, none, ""⟩ [] "ck" "last_checkpoint"
      [("step", 3)] = [] :=
  save_noop_of_empty_save_dir ⟨0, none, none, ""⟩ [] "ck" "last_checkpoint"
    [("step", 3)] rfl

/-- **C9**: `register_model_builder(name, builder)` raises `KeyError` for a
name already registered (the raise happens before any mutation, so the
registry is unchanged); for a fresh name it appends exactly the one new
mapping: afterwards `name` maps to `builder` and every other key maps to
what it mapped to before. -/
theorem register_model_builder_spec {μ : Type}
    (reg : List (String × (Cfg → μ))) (name : String) (builder : Cfg → μ) :
    (name ∈ dictKeys reg →
      register_model_builder reg name builder = .error (.keyError name)) ∧
    (name ∉ dictKeys reg →
      register_model_builder reg name builder = .ok (reg ++ [(name, builder)]) ∧
      ∀ k : String, dictLookup (reg ++ [(name, builder)]) k =
        if k = name then some builder else dictLookup reg k) := by
  constructor
  · intro hmem
    unfold register_model_builder
    rw [if_pos ((dictContains_iff_mem_keys reg name).mpr hmem)]
  · intro hmem
    have hcne : ¬ dictContains reg name = true := fun hh =>
      hmem ((dictContains_iff_mem_keys reg name).mp hh)
    refine ⟨by unfold register_model_builder; rw [if_neg hcne], ?_⟩
    intro k
    rw [dictLookup_append]
    by_cases hk : k = name
    · subst hk
      rw [dictLookup_eq_none_of_not_mem reg k hmem]
      simp [dictLookup]
    · have hne : name ≠ k := fun he => hk he.symm
      simp [dictLookup, hne, hk]

/-- Witness for C9: registering a duplicate key errors, a fresh key is
appended and resolves to the new builder while old keys are untouched. -/
theorem register_model_builder_spec_witness :
    (register_model_builder (μ := ℕ) [("POINTNET", fun _ => 1)] "POINTNET"
        (fun _ => 2) = .error (.keyError "POINTNET")) ∧
    (register_model_builder (μ := ℕ) [("POINTNET", fun _ => 1)] "RSCNN"
        (fun _ => 2) =
      .ok [("POINTNET", fun _ => 1), ("RSCNN", fun _ => 2)]) := by
  constructor
  · exact (register_model_builder_spec [("POINTNET", fun _ => 1)] "POINTNET"
      (fun _ => 2)).1 (by simp [dictKeys])
  · exact ((register_model_builder_spec [("POINTNET", fun _ => 1)] "RSCNN"
      (fun _ => 2)).2 (by simp [dictKeys])).1

/-- **C5**: `build_model(cfg)` applies the builder registered in
`_MODEL_BUILDERS` under `cfg.MODEL.TYPE`; for any `MODEL.TYPE` outside the
six registered names it yields a plain `KeyError`. -/
theorem build_model_spec {μ : Type}
    (build_pointnet build_dgcnn build_pointnet2ssg build_pointnet2msg
     build_pns2cnn build_s2cnn : Cfg → μ) (cfg : Cfg) :
    (∀ b, dictLookup (modelBuilders build_pointnet build_dgcnn
          build_pointnet2ssg build_pointnet2msg build_pns2cnn build_s2cnn)
          cfg.MODEL.TYPE = some b →
        build_model (modelBuilders build_pointnet build_dgcnn
          build_pointnet2ssg build_pointnet2msg build_pns2cnn build_s2cnn)
          cfg = .ok (b cfg)) ∧
    (cfg.MODEL.TYPE ∉ (["POINTNET", "DGCNN", "PN2SSG", "PN2MSG", "PNS2CNN",
        "S2CNN"] : List String) →
        build_model (modelBuilders build_pointnet build_dgcnn
          build_pointnet2ssg build_pointnet2msg build_pns2cnn build_s2cnn)
          cfg = .error (.keyError cfg.MODEL.TYPE)) := by
  constructor
  · intro b hb
    unfold build_model
    rw [hb]
  · intro hmem
    unfold build_model
    rw [dictLookup_eq_none_of_not_mem _ _ (by simpa [modelBuilders, dictKeys]
      using hmem)]

/-- Witness for C5: a registered type is built by its builder, an unknown
type raises `KeyError`. -/
theorem build_model_spec_witness :
    (build_model (μ := ℕ) (modelBuilders (fun _ => 0) (fun _ => 1)
        (fun _ => 2) (fun _ => 3) (fun _ => 4) (fun _ => 5))
        ⟨⟨"DGCNN"⟩, ⟨32⟩, ⟨16⟩, ⟨4, true⟩⟩ = .ok 1) ∧
    (build_model (μ := ℕ) (modelBuilders (fun _ => 0) (fun _ => 1)
        (fun _ => 2) (fun _ => 3) (fun _ => 4) (fun _ => 5))
        ⟨⟨"RSCNN"⟩, ⟨32⟩, ⟨16⟩, ⟨4, true⟩⟩ = .error (.keyError "RSCNN")) := by
  constructor
  · exact (build_model_spec (fun _ => 0) (fun _ => 1) (fun _ => 2)
      (fun _ => 3) (fun _ => 4) (fun _ => 5) ⟨⟨"DGCNN"⟩, ⟨32⟩, ⟨16⟩, ⟨4, true⟩⟩).1
      (fun _ => 1) rfl
  · exact (build_model_spec (fun _ => 0) (fun _ => 1) (fun _ => 2)
      (fun _ => 3) (fun _ => 4) (fun _ => 5) ⟨⟨"RSCNN"⟩, ⟨32⟩, ⟨16⟩, ⟨4, true⟩⟩).2
      (by decide)

/-- **C6**: for a mode among "train"/"val"/"test", `build_dataloader`
(once the dataset is constructed) passes the library `DataLoader` a
batch size of `cfg.TRAIN.BATCH_SIZE` for "train" and `cfg.TEST.BATCH_SIZE`
otherwise, shuffles iff the mode is "train", drops the last batch iff the
mode is "train" and `cfg.DATALOADER.DROP_LAST` holds, and uses
`cfg.DATALOADER.NUM_WORKERS` workers; any other mode fails the assertion. -/
theorem build_dataloader_spec {δ : Type}
    (buildDataset : String → Except PyErr δ) (cfg : Cfg) (mode : String) :
    (∀ d, (mode = "train" ∨ mode = "val" ∨ mode = "test") →
        buildDataset mode = .ok d →
        ∃ args : DataLoaderArgs δ,
          build_dataloader buildDataset cfg mode = .ok args ∧
          args.dataset = d ∧
          args.batch_size = (if mode = "train" then cfg.TRAIN.BATCH_SIZE
                             else cfg.TEST.BATCH_SIZE) ∧
          (args.shuffle = true ↔ mode = "train") ∧
          (args.drop_last = true ↔
            (mode = "train" ∧ cfg.DATALOADER.DROP_LAST = true)) ∧
          args.num_workers = cfg.DATALOADER.NUM_WORKERS) ∧
    (¬ (mode = "train" ∨ mode = "val" ∨ mode = "test") →
        build_dataloader buildDataset cfg mode = .error .assertionError) := by
  constructor
  · intro d hmode hok
    unfold build_dataloader
    rw [if_neg (not_not_intro hmode), hok]
    refine ⟨_, rfl, rfl, rfl, ?_, ?_, rfl⟩
    · simp
    · simp
  · intro hmode
    unfold build_dataloader
    rw [if_pos hmode]

/-- Witness for C6: "train" and "test" modes at a concrete configuration,
and the assertion failure at mode "foo". -/
theorem build_dataloader_spec_witness :
    (∃ args : DataLoaderArgs ℕ,
      build_dataloader (fun _ => .ok 0) ⟨⟨"DGCNN"⟩, ⟨32⟩, ⟨16⟩, ⟨4, true⟩⟩
        "train" = .ok args ∧
      args.batch_size = 32 ∧ args.shuffle = true ∧ args.drop_last = true ∧
      args.num_workers = 4) ∧
    (∃ args : DataLoaderArgs ℕ,
      build_dataloader (fun _ => .ok 0) ⟨⟨"DGCNN"⟩, ⟨32⟩, ⟨16⟩, ⟨4, true⟩⟩
        "test" = .ok args ∧
      args.batch_size = 16 ∧ args.shuffle = false ∧ args.drop_last = false ∧
      args.num_workers = 4) ∧
    build_dataloader (δ := ℕ) (fun _ => .ok 0)
      ⟨⟨"DGCNN"⟩, ⟨32⟩, ⟨16⟩, ⟨4, true⟩⟩ "foo" = .error .assertionError := by
  refine ⟨?_, ?_, ?_⟩
  · obtain ⟨args, h1, _, h3, h4, h5, h6⟩ :=
      (build_dataloader_spec (δ := ℕ) (fun _ => .ok 0)
        ⟨⟨"DGCNN"⟩, ⟨32⟩, ⟨16⟩, ⟨4, true⟩⟩ "train").1 0 (by decide) rfl
    exact ⟨args, h1, by simpa using h3, h4.mpr rfl,
      h5.mpr ⟨rfl, rfl⟩, by simpa using h6⟩
  · obtain ⟨args, h1, _, h3, h4, h5, h6⟩ :=
      (build_dataloader_spec (δ := ℕ) (fun _ => .ok 0)
        ⟨⟨"DGCNN"⟩, ⟨32⟩, ⟨16⟩, ⟨4, true⟩⟩ "test").1 0 (by decide) rfl
    refine ⟨args, h1, by simpa using h3, ?_, ?_, by simpa using h6⟩
    · cases hs : args.shuffle
      · rfl
      · exact absurd (h4.mp hs) (by decide)
    · cases hs : args.drop_last
      · rfl
      · exact absurd (h5.mp hs).1 (by decide)
  · exact (build_dataloader_spec (δ := ℕ) (fun _ => .ok 0)
      ⟨⟨"DGCNN"⟩, ⟨32⟩, ⟨16⟩, ⟨4, true⟩⟩ "foo").2 (by decide)

/-- **C7**: `ClsAccuracy.forward` returns `{"cls_acc": a}` where, per
batch sample `i`, `a i` is `1.0` when the argmax over classes of sample
`i`'s logits equals `cls_label i` and `0.0` otherwise. -/
theorem cls_accuracy_spec (preds : Preds) (labels : Labels)
    (hlen : preds.cls_logit.length = labels.cls_label.length) :
    ∃ a : List ℚ, ClsAccuracy.forward preds labels = [("cls_acc", a)] ∧
      a.length = preds.cls_logit.length ∧
      ∀ i (hi : i < preds.cls_logit.length)
        (hi' : i < labels.cls_label.length) (hia : i < a.length),
        a[i] = if (argmaxList preds.cls_logit[i] : ℤ) = labels.cls_label[i]
               then (1 : ℚ) else 0 := by
  refine ⟨_, rfl, ?_, ?_⟩
  · simp [ClsAccuracy.forward, hlen]
  · intro i hi hi' hia
    simp [ClsAccuracy.forward]

/-- Witness for C7 on a concrete two-sample batch: sample 0's argmax (1)
matches its label, sample 1's argmax (0) misses its label. -/
theorem cls_accuracy_spec_witness :
    ∃ a : List ℚ,
      ClsAccuracy.forward ⟨[[1, 3], [2, 0]]⟩ ⟨[1, 1]⟩ = [("cls_acc", a)] ∧
      a.length = (Preds.mk [[1, 3], [2, 0]]).cls_logit.length ∧
      ∀ i (hi : i < (Preds.mk [[1, 3], [2, 0]]).cls_logit.length)
        (hi' : i < (Labels.mk [1, 1]).cls_label.length) (hia : i < a.length),
        a[i] = if (argmaxList (Preds.mk [[1, 3], [2, 0]]).cls_logit[i] : ℤ) =
                   (Labels.mk [1, 1]).cls_label[i]
               then (1 : ℚ) else 0 :=
  cls_accuracy_spec ⟨[[1, 3], [2, 0]]⟩ ⟨[1, 1]⟩ rfl

/-- **C2 (counterexample)**: for `fn = "a "` (trailing space) the pointer
file stores `basename fn = "a "`, but `get_checkpoint_file` strips the text
it reads back, returning `"d/a"` rather than
`os.path.join(save_dir, os.path.basename(fn)) = "d/a "`. -/
theorem tag_roundtrip_strip_cex :
    Checkpointer.get_checkpoint_file (V := ℕ) ⟨0, none, none, "d"⟩
      (Checkpointer.tag_last_checkpoint (V := ℕ) ⟨0, none, none, "d"⟩ []
        "a " "last_checkpoint") "last_checkpoint" = "d/a" ∧
    isAbs "a " = false ∧
    joinPath "d" (basename "a ") = "d/a " ∧
    ("d/a" : String) ≠ "d/a " := by decide

/-- **C2 (amended)**: writing then reading the pointer file round-trips —
`get_checkpoint_file` returns `fn` for absolute `fn` and
`join(save_dir, basename fn)` for relative `fn` — provided the text the
tag file stores (`fn` if absolute, else `basename fn`) is unchanged by
whitespace stripping. -/
theorem tag_roundtrip {V : Type} (c : Checkpointer V) (fs : Fs V)
    (fn tag_file : String)
    (hstrip : pyStrip (if isAbs fn then fn else basename fn) =
              (if isAbs fn then fn else basename fn)) :
    Checkpointer.get_checkpoint_file c
      (Checkpointer.tag_last_checkpoint c fs fn tag_file) tag_file =
    if isAbs fn then fn else joinPath c.save_dir (basename fn) := by
  unfold Checkpointer.get_checkpoint_file Checkpointer.tag_last_checkpoint
  simp only [fsRead, fsWrite, dictLookup_set_self]
  rw [hstrip]
  cases habs : isAbs fn with
  | true => simp [habs]
  | false =>
      have hbn : isAbs (basename fn) = false :=
        isAbs_eq_false_of_no_slash _ (basename_no_slash fn)
      simp [habs, hbn]

/-- Witness for C2 at `fn = "model_best.pth"`, `save_dir = "d"`. -/
theorem tag_roundtrip_witness :
    Checkpointer.get_checkpoint_file (V := ℕ) ⟨0, none, none, "d"⟩
      (Checkpointer.tag_last_checkpoint (V := ℕ) ⟨0, none, none, "d"⟩ []
        "model_best.pth" "last_checkpoint") "last_checkpoint" =
      "d/model_best.pth" := by
  have h := tag_roundtrip (V := ℕ) ⟨0, none, none, "d"⟩ [] "model_best.pth"
    "last_checkpoint" (by decide)
  rw [h]
  decide

/-- **C3**: with `resume=True`, whenever the tag file exists in `save_dir`
the argument `f` is ignored and `load` proceeds from the path recorded in
the tag file (`get_checkpoint_file`); when the tag file does not exist and
`f` is `None` or empty, `load` returns the empty dictionary and leaves the
model, optimizer and scheduler states unchanged. -/
theorem load_resume_spec {V : Type} (c : Checkpointer V) (fs : Fs V)
    (f f' : Option String) (tag_file : String) :
    (Checkpointer.has_checkpoint c fs tag_file = true →
      Checkpointer.load c fs f true tag_file =
        Checkpointer.loadFromName c fs
          (some (Checkpointer.get_checkpoint_file c fs tag_file)) ∧
      Checkpointer.load c fs f true tag_file =
        Checkpointer.load c fs f' true tag_file) ∧
    (Checkpointer.has_checkpoint c fs tag_file = false →
      (f = none ∨ f = some "") →
      Checkpointer.load c fs f true tag_file = some (c, [])) := by
  constructor
  · intro h
    unfold Checkpointer.load
    constructor <;> simp [h]
  · intro h hf
    unfold Checkpointer.load
    rcases hf with hf | hf <;> subst hf <;>
      simp [h, Checkpointer.loadFromName]

/-- Witness for C3: with a tag file present `f` is ignored; with no tag
file and `f = None` the result is `({}, state unchanged)`. -/
theorem load_resume_spec_witness :
    (Checkpointer.load (V := ℕ) ⟨0, none, none, "d"⟩
        [("d/last_checkpoint", .text "m.pth"), ("d/m.pth", .ckpt [("model", 5)])]
        (some "other") true "last_checkpoint" =
      Checkpointer.load (V := ℕ) ⟨0, none, none, "d"⟩
        [("d/last_checkpoint", .text "m.pth"), ("d/m.pth", .ckpt [("model", 5)])]
        none true "last_checkpoint") ∧
    (Checkpointer.load (V := ℕ) ⟨0, none, none, "d"⟩ [] none true
        "last_checkpoint" = some (⟨0, none, none, "d"⟩, [])) := by
  constructor
  · exact ((load_resume_spec (V := ℕ) ⟨0, none, none, "d"⟩
      [("d/last_checkpoint", .text "m.pth"), ("d/m.pth", .ckpt [("model", 5)])]
      (some "other") none "last_checkpoint").1 (by decide)).2
  · exact (load_resume_spec (V := ℕ) ⟨0, none, none, "d"⟩ [] none none
      "last_checkpoint").2 (by decide) (Or.inl rfl)

/-- **C1 (counterexample)**: with `optimizer = None` but
`kwargs = {"optimizer": 7}`, `data.update(kwargs)` puts an `"optimizer"`
key into the stored dictionary, so "contains `"optimizer"` iff the
checkpointer's optimizer is not None" fails. -/
theorem save_optimizer_key_from_kwargs_cex :
    fsRead (Checkpointer.save (V := ℕ) ⟨0, none, none, "d"⟩ [] "ck"
        "last_checkpoint" [("optimizer", 7)]) (joinPath "d" ("ck" ++ ".pth")) =
      some (.ckpt [("model", 0), ("optimizer", 7)]) ∧
    ¬ (dictContains ([("model", 0), ("optimizer", 7)] : List (String × ℕ))
          "optimizer" = true ↔
        (Checkpointer.mk (V := ℕ) 0 none none "d").optimizer.isSome = true) := by
  constructor
  · decide
  · decide

/-- **C1 (amended)**: for a `Checkpointer` with non-empty `save_dir`,
`kwargs` whose keys avoid `"model"`, `"optimizer"` and `"scheduler"`, and a
checkpoint-file path distinct from the tag-file path,
`save(name, tag_file, **kwargs)` stores at `join(save_dir, name + ".pth")`
a dictionary containing `"model"`, containing `"optimizer"` iff the
optimizer is not None, containing `"scheduler"` iff the scheduler is not
None, and containing every entry of `kwargs`; afterwards the tag file
holds the saved file's name (the full path if absolute, else its
basename). -/
theorem save_spec {V : Type} (c : Checkpointer V) (fs : Fs V)
    (name tag_file : String) (kwargs : List (String × V))
    (hsd : c.save_dir ≠ "")
    (hnd : (dictKeys kwargs).Nodup)
    (hdisj : ∀ k ∈ dictKeys kwargs,
      k ∉ (["model", "optimizer", "scheduler"] : List String))
    (hpath : joinPath c.save_dir (name ++ ".pth") ≠
      joinPath c.save_dir tag_file) :
    ∃ d : List (String × V),
      fsRead (Checkpointer.save c fs name tag_file kwargs)
        (joinPath c.save_dir (name ++ ".pth")) = some (.ckpt d) ∧
      dictContains d "model" = true ∧
      (dictContains d "optimizer" = true ↔ c.optimizer.isSome = true) ∧
      (dictContains d "scheduler" = true ↔ c.scheduler.isSome = true) ∧
      (∀ kv ∈ kwargs, dictLookup d kv.1 = some kv.2) ∧
      fsRead (Checkpointer.save c fs name tag_file kwargs)
        (joinPath c.save_dir tag_file) =
        some (.text (if isAbs (joinPath c.save_dir (name ++ ".pth"))
                     then joinPath c.save_dir (name ++ ".pth")
                     else basename (joinPath c.save_dir (name ++ ".pth")))) := by
  rw [save_unfold c fs name tag_file kwargs hsd]
  refine ⟨Checkpointer.saveData c kwargs, ?_, ?_, ?_, ?_, ?_, ?_⟩
  · simp only [fsRead, fsWrite]
    rw [dictLookup_set_ne _ _ _ _ hpath, dictLookup_set_self]
  · rw [saveData_eq_base_append c kwargs hnd hdisj]
    simp only [Checkpointer.saveBase]
    cases c.optimizer <;> cases c.scheduler <;>
      simp [dictContains, dictLookup]
  · rw [saveData_eq_base_append c kwargs hnd hdisj]
    have hnk : "optimizer" ∉ dictKeys kwargs := fun hk =>
      hdisj _ hk (by simp)
    simp only [Checkpointer.saveBase]
    cases c.optimizer <;> cases c.scheduler <;>
      simp [dictContains, dictLookup_append, dictLookup,
        dictLookup_eq_none_of_not_mem _ _ hnk]
  · rw [saveData_eq_base_append c kwargs hnd hdisj]
    have hnk : "scheduler" ∉ dictKeys kwargs := fun hk =>
      hdisj _ hk (by simp)
    simp only [Checkpointer.saveBase]
    cases c.optimizer <;> cases c.scheduler <;>
      simp [dictContains, dictLookup_append, dictLookup,
        dictLookup_eq_none_of_not_mem _ _ hnk]
  · intro kv hkv
    rw [saveData_eq_base_append c kwargs hnd hdisj, dictLookup_append]
    have h1 : dictLookup (Checkpointer.saveBase c) kv.1 = none := by
      apply dictLookup_eq_none_of_not_mem
      intro hmem
      exact hdisj kv.1 (List.mem_map_of_mem _ hkv)
        (saveBase_keys_subset c kv.1 hmem)
    rw [h1, dictLookup_of_mem_nodup kwargs kv.1 kv.2 hkv hnd]
    rfl
  · simp only [fsRead, fsWrite]
    rw [dictLookup_set_self]

/-- Witness for C1 at a concrete checkpointer with both optimizer and
scheduler present and one extra kwargs entry. -/
theorem save_spec_witness :
    ∃ d : List (String × ℕ),
      fsRead (Checkpointer.save (V := ℕ) ⟨0, some 1, some 2, "d"⟩ [] "ck"
          "last_checkpoint" [("epoch", 9)]) (joinPath "d" ("ck" ++ ".pth")) =
        some (.ckpt d) ∧
      dictContains d "model" = true ∧
      (dictContains d "optimizer" = true ↔
        (Checkpointer.mk (V := ℕ) 0 (some 1) (some 2) "d").optimizer.isSome =
          true) ∧
      (dictContains d "scheduler" = true ↔
        (Checkpointer.mk (V := ℕ) 0 (some 1) (some 2) "d").scheduler.isSome =
          true) ∧
      (∀ kv ∈ ([("epoch", 9)] : List (String × ℕ)),
        dictLookup d kv.1 = some kv.2) ∧
      fsRead (Checkpointer.save (V := ℕ) ⟨0, some 1, some 2, "d"⟩ [] "ck"
          "last_checkpoint" [("epoch", 9)]) (joinPath "d" "last_checkpoint") =
        some (.text (if isAbs (joinPath "d" ("ck" ++ ".pth"))
                     then joinPath "d" ("ck" ++ ".pth")
                     else basename (joinPath "d" ("ck" ++ ".pth")))) :=
  save_spec ⟨0, some 1, some 2, "d"⟩ [] "ck" "last_checkpoint" [("epoch", 9)]
    (by decide) (by decide) (by decide) (by decide)

/-- **C4 (counterexample)**: with `save_dir = ""`, `save` is a no-op, so
`load(resume=True)` finds nothing and returns `{}`, not the kwargs that
were "saved". -/
theorem save_load_empty_savedir_cex :
    Checkpointer.load (V := ℕ) ⟨0, some 1, some 2, ""⟩
      (Checkpointer.save (V := ℕ) ⟨0, some 1, some 2, ""⟩ [] "ck"
        "last_checkpoint" [("extra", 9)]) none true "last_checkpoint" =
      some (⟨0, some 1, some 2, ""⟩, []) ∧
    ([] : List (String × ℕ)) ≠ [("extra", 9)] := by
  constructor
  · decide
  · decide

/-- **C4 (amended)**: for a `Checkpointer` with non-empty `save_dir`,
optimizer and scheduler both present, a checkpoint name free of path
separators and not starting with whitespace, and kwargs whose keys avoid
`"model"`, `"optimizer"`, `"scheduler"`: `load(resume=True)` right after
`save(name, **kwargs)` consumes the model/optimizer/scheduler entries
(leaving all three states as saved) and returns exactly the extra data
`kwargs`. -/
theorem save_load_roundtrip {V : Type} (c : Checkpointer V) (fs : Fs V)
    (name : String) (kwargs : List (String × V)) (vo vs : V)
    (hopt : c.optimizer = some vo) (hsch : c.scheduler = some vs)
    (hsd : c.save_dir ≠ "")
    (hnd : (dictKeys kwargs).Nodup)
    (hdisj : ∀ k ∈ dictKeys kwargs,
      k ∉ (["model", "optimizer", "scheduler"] : List String))
    (hslash : '/' ∉ name.data)
    (hws : ∀ ch : Char, name.data.head? = some ch → isPySpace ch = false) :
    Checkpointer.load c
      (Checkpointer.save c fs name "last_checkpoint" kwargs)
      none true "last_checkpoint" = some (c, kwargs) := by
  obtain ⟨hrel, hnos⟩ := isAbs_append_pth name hslash
  have hlastpth : (name ++ ".pth").data.getLast? = some 'h' := by
    rw [String.data_append, getLast?_append_right _ _ (by decide)]
    decide
  have hdata_ne : (name ++ ".pth").data ≠ [] := by
    intro he; rw [he] at hlastpth; simp at hlastpth
  have hpathne : joinPath c.save_dir (name ++ ".pth") ≠
      joinPath c.save_dir "last_checkpoint" := by
    intro h
    exact pth_ne_last_checkpoint name
      (joinPath_inj_rel _ _ _ hrel (by decide) h)
  rw [save_unfold c fs name "last_checkpoint" kwargs hsd]
  set sf := joinPath c.save_dir (name ++ ".pth") with hsf
  set tp := joinPath c.save_dir "last_checkpoint" with htp
  set D := Checkpointer.saveData c kwargs with hD
  set W := (if isAbs sf then sf else basename sf) with hWdef
  set fs2 := fsWrite (fsWrite fs sf (.ckpt D)) tp (.text W) with hfs2
  have hsflast : sf.data.getLast? = some 'h' := by
    rw [hsf, joinPath_getLast _ _ hdata_ne]; exact hlastpth
  have hsfne : sf ≠ "" := string_ne_empty_of_getLast hsflast
  have hreadtag : fsRead fs2 tp = some (.text W) := by
    rw [hfs2]; simp only [fsRead, fsWrite]; rw [dictLookup_set_self]
  have hreadck : fsRead fs2 sf = some (.ckpt D) := by
    rw [hfs2]; simp only [fsRead, fsWrite]
    rw [dictLookup_set_ne _ _ _ _ hpathne, dictLookup_set_self]
  have hstripW : pyStrip W = W := by
    by_cases habs : isAbs sf = true
    · rw [hWdef, if_pos habs]
      apply pyStrip_eq_self
      · intro ch hch
        rw [(isAbs_true_iff sf).mp habs] at hch
        obtain rfl := Option.some.inj hch
        decide
      · intro ch hch
        rw [hsflast] at hch
        obtain rfl := Option.some.inj hch
        decide
    · rw [hWdef, if_neg habs]
      have hbn : basename sf = name ++ ".pth" := by
        rw [hsf]; exact basename_joinPath _ _ hsd hnos
      rw [hbn]
      apply pyStrip_eq_self
      · intro ch hch
        rw [String.data_append] at hch
        cases hn : name.data with
        | nil =>
            rw [hn] at hch
            rw [List.nil_append] at hch
            rw [show ((".pth" : String).data.head? = some '.') from rfl] at hch
            obtain rfl := Option.some.inj hch
            decide
        | cons c0 t =>
            rw [hn] at hch
            rw [List.cons_append, List.head?_cons] at hch
            obtain rfl := Option.some.inj hch
            exact hws c0 (by rw [hn]; rfl)
      · intro ch hch
        rw [hlastpth] at hch
        obtain rfl := Option.some.inj hch
        decide
  have hresolve : (if isAbs W then W else joinPath c.save_dir W) = sf := by
    by_cases habs : isAbs sf = true
    · rw [hWdef]
      simp [habs]
    · rw [hWdef, if_neg habs]
      have hbn : basename sf = name ++ ".pth" := by
        rw [hsf]; exact basename_joinPath _ _ hsd hnos
      rw [hbn, if_neg (by rw [hrel]; simp), ← hsf]
  have hget : Checkpointer.get_checkpoint_file c fs2 "last_checkpoint" = sf := by
    unfold Checkpointer.get_checkpoint_file
    rw [← htp]
    simp only [hreadtag]
    simp only [hstripW]
    exact hresolve
  have hhas : Checkpointer.has_checkpoint c fs2 "last_checkpoint" = true := by
    unfold Checkpointer.has_checkpoint
    rw [← htp]
    unfold fsExists dictContains
    rw [show dictLookup fs2 tp = some (.text W) from hreadtag]
    rfl
  have hDeq : D = ("model", c.model) :: ("optimizer", vo) ::
      ("scheduler", vs) :: kwargs := by
    rw [hD, saveData_eq_base_append c kwargs hnd hdisj]
    simp only [Checkpointer.saveBase]
    rw [hopt, hsch]
    simp
  unfold Checkpointer.load
  rw [hhas]
  simp only [Bool.and_true, Bool.true_and, if_pos rfl, reduceIte]
  rw [hget]
  simp only [Checkpointer.loadFromName]
  rw [if_neg hsfne]
  unfold Checkpointer.loadCkptFile
  rw [hreadck, hDeq]
  simp only [dictLookup, dictPop, dictContains, hopt, hsch]
  simp only [Option.isSome_some, Bool.and_true, Bool.true_and]
  simp
  rw [← hopt, ← hsch]

/-- Witness for C4: a concrete save/load round trip with one extra kwargs
entry returns exactly that entry. -/
theorem save_load_roundtrip_witness :
    Checkpointer.load (V := ℕ) ⟨0, some 1, some 2, "d"⟩
      (Checkpointer.save (V := ℕ) ⟨0, some 1, some 2, "d"⟩ [] "ck"
        "last_checkpoint" [("extra", 9)]) none true "last_checkpoint" =
      some (⟨0, some 1, some 2, "d"⟩, [("extra", 9)]) :=
  save_load_roundtrip ⟨0, some 1, some 2, "d"⟩ [] "ck" [("extra", 9)] 1 2
    rfl rfl (by decide) (by decide) (by decide) (by decide)
    (fun ch h => by
      rw [show ("ck" : String).data.head? = some 'c' from rfl] at h
      obtain rfl := Option.some.inj h
      decide)

/-- Indexing `points` by the identity index list is a prefix of `points`. -/
theorem map_getD_range {P : Type} [Inhabited P] (points : List P) (m : ℕ)
    (hm : m ≤ points.length) :
    (List.range m).map (fun i => points.getD i default) = points.take m := by
  apply List.ext_getElem
  · simp [List.length_take]
    omega
  · intro i h1 h2
    rw [List.length_map, List.length_range] at h1
    rw [List.getElem_map, List.getElem_take, List.getElem_range,
      List.getD_eq_getElem points default (by omega)]

/-- **C8 (counterexample)**: a one-point cloud requested at
`num_points = 3` yields only `1 + min(2, 1) = 2` rows, not 3: the pad
`np.random.permutation(choice)[:num_pad]` cannot be longer than the cloud
itself. (For a singleton cloud the identity is the only permutation, so
the random draw is forced.) -/
theorem fewshot_underfill_cex :
    ((fun l : List ℕ => l) (List.range 1)).Perm (List.range 1) ∧
    (fewshotGetPoints (P := ℕ) [5] 3 false (fun n => List.range n)
      (fun l => l)).length = 2 ∧ (2 : ℕ) ≠ 3 := by
  refine ⟨List.Perm.refl _, ?_, by decide⟩
  decide

/-- **C8 (amended)**: with `shuffle_points` false, `num_points > 0` and a
valid item whose stored cloud is `points` (`permPad` being the random
permutation used for padding): if the cloud has at least `num_points`
points the result is exactly the first `num_points` points in original
order; otherwise the result is every original point once, followed by
`min(num_points - len, len)` duplicates drawn from the original points —
`min(num_points, 2*len)` rows in total, which falls short of `num_points`
whenever `num_points > 2*len`. -/
theorem fewshot_getitem_points {P : Type} [Inhabited P] (points : List P)
    (num_points : ℤ) (permAll : ℕ → List ℕ) (permPad : List ℕ → List ℕ)
    (hperm : ∀ l : List ℕ, (permPad l).Perm l)
    (hnp : 0 < num_points) :
    (num_points ≤ (points.length : ℤ) →
      fewshotGetPoints points num_points false permAll permPad =
        points.take num_points.toNat ∧
      (fewshotGetPoints points num_points false permAll permPad).length =
        num_points.toNat) ∧
    ((points.length : ℤ) < num_points →
      ∃ padPts : List P,
        fewshotGetPoints points num_points false permAll permPad =
          points ++ padPts ∧
        padPts.length = min (num_points.toNat - points.length)
          points.length ∧
        (∀ p ∈ padPts, p ∈ points) ∧
        (fewshotGetPoints points num_points false permAll permPad).length =
          min num_points.toNat (2 * points.length)) := by
  have hch : fewshotChoice points.length num_points false permAll permPad =
      (if 0 < num_points then
        (if num_points ≤ (points.length : ℤ) then
          (List.range points.length).take num_points.toNat
        else (List.range points.length) ++
          (permPad (List.range points.length)).take
            (num_points - (points.length : ℤ)).toNat)
      else List.range points.length) := by
    unfold fewshotChoice
    simp only [Bool.false_eq_true, if_false]
  constructor
  · intro hle
    have htn : num_points.toNat ≤ points.length := by omega
    unfold fewshotGetPoints
    rw [hch, if_pos hnp, if_pos hle, List.take_range,
      show min num_points.toNat points.length = num_points.toNat by omega,
      map_getD_range points num_points.toNat htn]
    refine ⟨rfl, ?_⟩
    rw [List.length_take]
    omega
  · intro hlt
    have hgt : ¬ num_points ≤ (points.length : ℤ) := by omega
    have hlenperm : (permPad (List.range points.length)).length =
        points.length := by
      rw [(hperm _).length_eq, List.length_range]
    unfold fewshotGetPoints
    rw [hch, if_pos hnp, if_neg hgt, List.map_append,
      map_getD_range points points.length le_rfl, List.take_length]
    refine ⟨_, rfl, ?_, ?_, ?_⟩
    · rw [List.length_map, List.length_take, hlenperm]
      omega
    · intro p hp
      rw [List.mem_map] at hp
      obtain ⟨i, hi, rfl⟩ := hp
      have hi2 : i ∈ List.range points.length :=
        (hperm _).mem_iff.mp (List.mem_of_mem_take hi)
      have hi3 : i < points.length := List.mem_range.mp hi2
      rw [List.getD_eq_getElem _ _ hi3]
      exact List.getElem_mem hi3
    · rw [List.length_append, List.length_map, List.length_take, hlenperm]
      omega

/-- Witness for C8: a 2-point cloud at `num_points = 1` returns the first
point; a 1-point cloud at `num_points = 2` returns `1 + min(1,1) = 2`
rows. -/
theorem fewshot_getitem_points_witness :
    (fewshotGetPoints (P := ℕ) [5, 6] 1 false (fun n => List.range n)
      (fun l => l) = [5]) ∧
    (fewshotGetPoints (P := ℕ) [5] 2 false (fun n => List.range n)
      (fun l => l)).length = 2 := by
  constructor
  · have h := (fewshot_getitem_points (P := ℕ) [5, 6] 1 (fun n => List.range n)
      (fun l => l) (fun l => List.Perm.refl l) (by decide)).1 (by decide)
    rw [h.1]
    decide
  · obtain ⟨padPts, h1, h2, h3, h4⟩ :=
      (fewshot_getitem_points (P := ℕ) [5] 2 (fun n => List.range n)
        (fun l => l) (fun l => List.Perm.refl l) (by decide)).2 (by decide)
    rw [h4]
    decide

end Shaper

example : Shaper.pyStrip " a\n" = "a" := by decide
example : Shaper.basename "d/b.pth" = "b.pth" := by decide
example : Shaper.joinPath "d" "a.pth" = "d/a.pth" := by decide
example : Shaper.joinPath "d" "/x" = "/x" := by decide
example : Shaper.joinPath "" "x" = "x" := by decide
example : Shaper.joinPath "d/" "x" = "d/x" := by decide
example : Shaper.joinPath "d" "" = "d/" := by decide
